import Mathlib

/-!
Shallow embedding of the settlement core of the peer-to-peer energy
marketplace backend (`backend/app/services.py`, `backend/app/models.py`,
`backend/app/config.py`).

Modelling conventions:
* Python floats are idealised as rationals (`ℚ`); Python's `round(x, 4)`
  (round half to even) becomes `round4` below.
* The SQLAlchemy session is made explicit: the database is a `Db` record,
  each service function threads it.  A service call that raises before
  `db.commit()` leaves the durable database unchanged (the app uses
  `autoflush=False, autocommit=False`, so nothing is flushed early); the
  session-level function `accept_offer_session` additionally exposes the
  in-session (uncommitted) state at the moment an exception is raised, so
  that statements about "no partial mutation" are about the code path and
  not vacuously about rollback.
* `time.localtime(ts).tm_hour` is an OS call outside the core; pricing
  functions are therefore stated over the resolved hour of day, exactly as
  the pricing claims are phrased ("timestamp whose resolved hour ...").
* The process-lifetime surge singleton (`_SURGE`) is passed as an explicit
  `Option SurgeWindow` parameter.
-/

namespace P2PMarket

/-- Python `round` rounds half to even.  `pyRoundInt q` is `round(q)` for a
rational `q`, returning an integer. -/
def pyRoundInt (q : ℚ) : ℤ :=
  if q - ⌊q⌋ < 1/2 then ⌊q⌋
  else if 1/2 < q - ⌊q⌋ then ⌊q⌋ + 1
  else if ⌊q⌋ % 2 = 0 then ⌊q⌋ else ⌊q⌋ + 1

/-- Python `round(x, 4)`, idealised on rationals.  At an exact decimal
midpoint the ideal half-even rule can differ from CPython, which rounds
the nearest binary double rather than the decimal value; no theorem below
depends on the tie direction, and every concrete input used in a theorem
is taken away from midpoints, where the two agree. -/
def round4 (q : ℚ) : ℚ := (pyRoundInt (q * 10000) : ℚ) / 10000

/-- A rational is on the 4-decimal money/energy grid (an integer number of
`1/10000` units).  Every value the services write to a balance or an offer
quantity is of this shape. -/
def onGrid (q : ℚ) : Prop := (q * 10000).den = 1

instance (q : ℚ) : Decidable (onGrid q) := by
  unfold onGrid; infer_instance

theorem onGrid_iff {q : ℚ} : onGrid q ↔ ∃ n : ℤ, q = (n : ℚ) / 10000 := by
  constructor
  · intro h
    refine ⟨(q * 10000).num, ?_⟩
    have hq : ((q * 10000).num : ℚ) = q * 10000 := by
      conv_rhs => rw [← Rat.num_div_den (q * 10000)]
      rw [h]; simp
    rw [hq]; ring
  · rintro ⟨n, rfl⟩
    unfold onGrid
    have : (n : ℚ) / 10000 * 10000 = (n : ℚ) := by ring
    rw [this]; exact Rat.den_intCast n

theorem pyRoundInt_intCast (n : ℤ) : pyRoundInt (n : ℚ) = n := by
  unfold pyRoundInt
  norm_num

theorem round4_onGrid (q : ℚ) : onGrid (round4 q) := by
  rw [onGrid_iff]
  exact ⟨pyRoundInt (q * 10000), rfl⟩

theorem round4_eq_self {q : ℚ} (h : onGrid q) : round4 q = q := by
  rw [onGrid_iff] at h
  obtain ⟨n, rfl⟩ := h
  unfold round4
  have h1 : (n : ℚ) / 10000 * 10000 = (n : ℚ) := by ring
  rw [h1, pyRoundInt_intCast]

theorem onGrid_add {q r : ℚ} (hq : onGrid q) (hr : onGrid r) : onGrid (q + r) := by
  rw [onGrid_iff] at *
  obtain ⟨a, rfl⟩ := hq
  obtain ⟨b, rfl⟩ := hr
  exact ⟨a + b, by push_cast; ring⟩

theorem onGrid_sub {q r : ℚ} (hq : onGrid q) (hr : onGrid r) : onGrid (q - r) := by
  rw [onGrid_iff] at *
  obtain ⟨a, rfl⟩ := hq
  obtain ⟨b, rfl⟩ := hr
  exact ⟨a - b, by push_cast; ring⟩

theorem onGrid_zero : onGrid 0 := by unfold onGrid; norm_num

theorem floor_le_pyRoundInt (q : ℚ) : ⌊q⌋ ≤ pyRoundInt q := by
  unfold pyRoundInt
  split
  · omega
  split
  · omega
  split <;> omega

theorem pyRoundInt_le_floor_add_one (q : ℚ) : pyRoundInt q ≤ ⌊q⌋ + 1 := by
  unfold pyRoundInt
  split
  · omega
  split
  · omega
  split <;> omega

theorem pyRoundInt_le (q : ℚ) : (pyRoundInt q : ℚ) ≤ q + 1/2 := by
  have hf := Int.floor_le q
  have hf' := Int.lt_floor_add_one q
  unfold pyRoundInt
  split
  · linarith
  split
  · rename_i h1 h2
    push_cast
    linarith
  split
  · linarith
  · rename_i h1 h2 h3
    have hhalf : q - (⌊q⌋ : ℚ) = 1/2 := le_antisymm (not_lt.mp h2) (not_lt.mp h1)
    push_cast
    linarith

theorem le_pyRoundInt (q : ℚ) : q - 1/2 ≤ (pyRoundInt q : ℚ) := by
  have hf := Int.floor_le q
  have hf' := Int.lt_floor_add_one q
  unfold pyRoundInt
  split
  · rename_i h1
    linarith
  split
  · push_cast
    linarith
  split
  · rename_i h1 h2 h3
    have hhalf : q - (⌊q⌋ : ℚ) = 1/2 := le_antisymm (not_lt.mp h2) (not_lt.mp h1)
    linarith
  · push_cast
    linarith

theorem pyRoundInt_mono {q r : ℚ} (h : q ≤ r) : pyRoundInt q ≤ pyRoundInt r := by
  rcases lt_or_eq_of_le (Int.floor_le_floor h) with hlt | heq
  · have h1 := pyRoundInt_le_floor_add_one q
    have h2 := floor_le_pyRoundInt r
    omega
  · by_cases hq1 : q - (⌊q⌋ : ℚ) < 1/2
    · have h1 : pyRoundInt q = ⌊q⌋ := by unfold pyRoundInt; rw [if_pos hq1]
      rw [h1, heq]
      exact floor_le_pyRoundInt r
    · by_cases hq2 : 1/2 < q - (⌊q⌋ : ℚ)
      · have hr2 : 1/2 < r - (⌊r⌋ : ℚ) := by
          rw [← heq]; linarith
        have h1 : pyRoundInt q = ⌊q⌋ + 1 := by
          unfold pyRoundInt; rw [if_neg hq1, if_pos hq2]
        have h2 : pyRoundInt r = ⌊r⌋ + 1 := by
          unfold pyRoundInt; rw [if_neg (by linarith), if_pos hr2]
        omega
      · have hqhalf : q - (⌊q⌋ : ℚ) = 1/2 := le_antisymm (not_lt.mp hq2) (not_lt.mp hq1)
        by_cases hr2 : 1/2 < r - (⌊r⌋ : ℚ)
        · have h2 : pyRoundInt r = ⌊r⌋ + 1 := by
            unfold pyRoundInt; rw [if_neg (by linarith), if_pos hr2]
          have h1 := pyRoundInt_le_floor_add_one q
          omega
        · have hrge : (1:ℚ)/2 ≤ r - (⌊r⌋ : ℚ) := by
            rw [← heq]; linarith
          have hrhalf : r - (⌊r⌋ : ℚ) = 1/2 := le_antisymm (not_lt.mp hr2) hrge
          have h1 : pyRoundInt q = if ⌊q⌋ % 2 = 0 then ⌊q⌋ else ⌊q⌋ + 1 := by
            unfold pyRoundInt; rw [if_neg hq1, if_neg hq2]
          have h2 : pyRoundInt r = if ⌊r⌋ % 2 = 0 then ⌊r⌋ else ⌊r⌋ + 1 := by
            unfold pyRoundInt
            rw [if_neg (by linarith : ¬ r - (⌊r⌋ : ℚ) < 1/2),
                if_neg (by linarith : ¬ 1/2 < r - (⌊r⌋ : ℚ))]
          rw [h1, h2, heq]

theorem round4_le (q : ℚ) : round4 q ≤ q + 1/20000 := by
  unfold round4
  have h := pyRoundInt_le (q * 10000)
  rw [div_le_iff₀ (by norm_num : (0:ℚ) < 10000)]
  linarith

theorem le_round4 (q : ℚ) : q - 1/20000 ≤ round4 q := by
  unfold round4
  have h := le_pyRoundInt (q * 10000)
  rw [le_div_iff₀ (by norm_num : (0:ℚ) < 10000)]
  linarith

theorem round4_mono {q r : ℚ} (h : q ≤ r) : round4 q ≤ round4 r := by
  unfold round4
  have h1 : pyRoundInt (q * 10000) ≤ pyRoundInt (r * 10000) :=
    pyRoundInt_mono (by linarith)
  have h2 : ((pyRoundInt (q * 10000) : ℤ) : ℚ) ≤ ((pyRoundInt (r * 10000) : ℤ) : ℚ) := by
    exact_mod_cast h1
  linarith

theorem round4_nonneg {q : ℚ} (h : 0 ≤ q) : 0 ≤ round4 q := by
  have h0 : round4 0 = 0 := round4_eq_self onGrid_zero
  calc (0:ℚ) = round4 0 := h0.symm
    _ ≤ round4 q := round4_mono h

/-- Epsilon used by the services (`1e-9` in the Python source). -/
def eps9 : ℚ := 1/1000000000

/-! ## Data model (`backend/app/models.py`) -/

/-- Enum `UserRole` from `models.py`. -/
inductive UserRole
  | provider
  | producer
  | consumer
  | both
deriving DecidableEq, Repr

/-- Enum `OfferStatus` from `models.py`.  Note: there is no `completed`
member; `accept_offer` nevertheless references `OfferStatus.completed`. -/
inductive OfferStatus
  | active
  | closed
  | cancelled
deriving DecidableEq, Repr

/-- ORM model `User`. -/
structure User where
  id : ℕ
  email : String
  wallet : String
  role : UserRole
  balance_eur : ℚ
deriving DecidableEq, Repr

/-- ORM model `MeterSample`. -/
structure MeterSample where
  id : ℕ
  user_id : ℕ
  production_kwh : ℚ
  consumption_kwh : ℚ
  ts : ℤ
deriving DecidableEq, Repr

/-- ORM model `Offer`. -/
structure Offer where
  id : ℕ
  seller_id : ℕ
  kwh_total : ℚ
  kwh_remaining : ℚ
  price_eur_per_kwh : ℚ
  status : OfferStatus
  created_ts : ℤ
deriving DecidableEq, Repr

/-- ORM model `Trade`. -/
structure Trade where
  id : ℕ
  offer_id : ℕ
  buyer_id : ℕ
  kwh : ℚ
  total_eur : ℚ
  ts : ℤ
  tx_hash : Option String
deriving DecidableEq, Repr

/-- The persisted database: the four tables plus autoincrement counters. -/
structure Db where
  users : List User
  meter_samples : List MeterSample
  offers : List Offer
  trades : List Trade
  next_sample_id : ℕ
  next_offer_id : ℕ
  next_trade_id : ℕ
deriving DecidableEq, Repr

/-- Primary-key lookup `db.get(User, uid)`. -/
def Db.getUser (db : Db) (uid : ℕ) : Option User :=
  db.users.find? (fun u => u.id = uid)

/-- Primary-key lookup `db.get(Offer, oid)`. -/
def Db.getOffer (db : Db) (oid : ℕ) : Option Offer :=
  db.offers.find? (fun o => o.id = oid)

/-- Payloads of the `ValueError`s raised by the services (the literal
message strings carry no other information, so they are enumerated). -/
inductive ValMsg
  | amountMustBePositive
  | userNotFound
  | energyMustBeNonneg
  | kwhMustBePositive
  | buyerNotFound
  | offerNotAvailable
  | cannotBuyOwnOffer
  | noRemainingKwh
  | insufficientFunds
  | sellerNotFound
  | onlyProducersCanSell
  | kwhAndPriceMustBePositive
  | notEnoughSurplus
deriving DecidableEq, Repr

/-- Exceptions a service call can surface: the explicit `ValueError`s, the
`AttributeError` from the reference to the nonexistent
`OfferStatus.completed` member (or a `None` attribute access), and an
`IntegrityError` from a SQLite CHECK constraint at commit time. -/
inductive PyErr
  | valueError (m : ValMsg)
  | attributeError
  | integrityError
deriving DecidableEq, Repr

/-! ## Users and balances (`services.py`) -/

/-- Service `create_user`. -/
def create_user (db : Db) (email wallet : String) (role : UserRole) (uid : ℕ) : User × Db :=
  let u : User := { id := uid, email := email, wallet := wallet, role := role, balance_eur := 0 }
  (u, { db with users := db.users ++ [u] })

/-- Update of one user row keyed by primary key (the session holds a single
object per primary key, which the service mutates in place). -/
def setUserBalance (users : List User) (uid : ℕ) (bal : ℚ) : List User :=
  users.map (fun u => if u.id = uid then { u with balance_eur := bal } else u)

/-- Service `fund_user`. -/
def fund_user (db : Db) (user_id : ℕ) (amount : ℚ) : Except PyErr (ℚ × Db) :=
  if amount ≤ 0 then .error (.valueError .amountMustBePositive)
  else
    match db.getUser user_id with
    | none => .error (.valueError .userNotFound)
    | some user =>
      let bal := round4 (user.balance_eur + amount)
      .ok (bal, { db with users := setUserBalance db.users user_id bal })

/-! ## Meter samples and surplus (`services.py`) -/

/-- Service `record_meter_sample`: the Surplus Ledger ingestion. -/
def record_meter_sample (db : Db) (user_id : ℕ) (prod_kwh cons_kwh : ℚ) (ts : ℤ) :
    Except PyErr (ℕ × Db) :=
  if prod_kwh < 0 ∨ cons_kwh < 0 then .error (.valueError .energyMustBeNonneg)
  else if (db.getUser user_id).isNone then .error (.valueError .userNotFound)
  else
    .ok (db.next_sample_id,
      { db with
        meter_samples := db.meter_samples ++
          [{ id := db.next_sample_id, user_id := user_id,
             production_kwh := prod_kwh, consumption_kwh := cons_kwh, ts := ts }],
        next_sample_id := db.next_sample_id + 1 })

/-- Ordering used by `list_meter_series` (`ORDER BY ts ASC`). -/
def sampleOrder (m1 m2 : MeterSample) : Prop := m1.ts ≤ m2.ts

instance : DecidableRel sampleOrder := fun m1 m2 => by
  unfold sampleOrder; infer_instance

instance : IsTotal MeterSample sampleOrder :=
  ⟨fun m1 m2 => le_total m1.ts m2.ts⟩

instance : IsTrans MeterSample sampleOrder :=
  ⟨fun _ _ _ h1 h2 => le_trans h1 h2⟩

/-- Service `list_meter_series`: samples of one user since `since_ts`,
ascending by timestamp. -/
def list_meter_series (db : Db) (user_id : ℕ) (since_ts : ℤ) : List MeterSample :=
  (db.meter_samples.filter (fun m => m.user_id = user_id ∧ since_ts ≤ m.ts)).insertionSort
    sampleOrder

/-- Service `compute_surplus_last_hours`: the windowed surplus.  The
current wall-clock time (`int(time.time())` in the source) is the explicit
parameter `now`. -/
def compute_surplus_last_hours (db : Db) (user_id : ℕ) (now : ℤ) (hours : ℤ := 12) : ℚ :=
  round4 (((list_meter_series db user_id (now - hours * 3600)).map
    (fun m => max 0 (m.production_kwh - m.consumption_kwh))).sum)

/-- Service `compute_latest_surplus`. -/
def compute_latest_surplus (db : Db) (user_id : ℕ) : ℚ :=
  match ((db.meter_samples.filter (fun m => m.user_id = user_id)).insertionSort
      (fun m1 m2 => m2.ts ≤ m1.ts)).head? with
  | none => 0
  | some m => round4 (max 0 (m.production_kwh - m.consumption_kwh))

/-- Service `compute_reserved_surplus_kwh`: kWh reserved in active offers. -/
def compute_reserved_surplus_kwh (db : Db) (user_id : ℕ) : ℚ :=
  round4 (((db.offers.filter
    (fun o => o.seller_id = user_id ∧ o.status = OfferStatus.active)).map
      (fun o => o.kwh_remaining)).sum)

/-! ## Household offers (`services.py`) -/

/-- Service `create_offer`.  `now` is the wall clock used by the surplus
window; `ts`, when given, overrides the recorded creation timestamp
(`now = int(time.time()) if ts is None else ts` in the source).  The final
`integrityError` case is the commit: SQLite enforces the CHECK constraints
`kwh_total > 0` and `price_eur_per_kwh > 0` declared in `models.py`, which
the rounded values can violate even though the raw inputs were positive. -/
def create_offer (db : Db) (seller_id : ℕ) (kwh price_eur_per_kwh : ℚ) (now : ℤ)
    (ts : Option ℤ := none) : Except PyErr (Offer × Db) :=
  match db.getUser seller_id with
  | none => .error (.valueError .sellerNotFound)
  | some seller =>
    if seller.role ≠ UserRole.producer ∧ seller.role ≠ UserRole.both then
      .error (.valueError .onlyProducersCanSell)
    else if kwh ≤ 0 ∨ price_eur_per_kwh ≤ 0 then
      .error (.valueError .kwhAndPriceMustBePositive)
    else
      let stored_12h := compute_surplus_last_hours db seller_id now 12
      let reserved := compute_reserved_surplus_kwh db seller_id
      let available := round4 (stored_12h - reserved)
      if available + eps9 < kwh then
        .error (.valueError .notEnoughSurplus)
      else
        let offer : Offer :=
          { id := db.next_offer_id, seller_id := seller_id,
            kwh_total := round4 kwh, kwh_remaining := round4 kwh,
            price_eur_per_kwh := round4 price_eur_per_kwh,
            status := OfferStatus.active, created_ts := ts.getD now }
        if offer.kwh_total ≤ 0 ∨ offer.price_eur_per_kwh ≤ 0 then
          .error .integrityError
        else
          .ok (offer,
            { db with offers := db.offers ++ [offer],
                      next_offer_id := db.next_offer_id + 1 })

/-- Ordering of `list_active_household_offers`
(`ORDER BY price_eur_per_kwh ASC, created_ts DESC`). -/
def offerOrder (o1 o2 : Offer) : Prop :=
  o1.price_eur_per_kwh < o2.price_eur_per_kwh ∨
    (o1.price_eur_per_kwh = o2.price_eur_per_kwh ∧ o2.created_ts ≤ o1.created_ts)

instance : DecidableRel offerOrder := fun o1 o2 => by
  unfold offerOrder; infer_instance

instance : IsTotal Offer offerOrder := by
  constructor
  intro o1 o2
  rcases lt_trichotomy o1.price_eur_per_kwh o2.price_eur_per_kwh with h | h | h
  · exact Or.inl (Or.inl h)
  · rcases le_total o2.created_ts o1.created_ts with ht | ht
    · exact Or.inl (Or.inr ⟨h, ht⟩)
    · exact Or.inr (Or.inr ⟨h.symm, ht⟩)
  · exact Or.inr (Or.inl h)

instance : IsTrans Offer offerOrder := by
  constructor
  intro a b c hab hbc
  rcases hab with h1 | ⟨h1, h1t⟩ <;> rcases hbc with h2 | ⟨h2, h2t⟩
  · exact Or.inl (lt_trans h1 h2)
  · exact Or.inl (h2 ▸ h1)
  · exact Or.inl (h1 ▸ h2)
  · exact Or.inr ⟨h1.trans h2, le_trans h2t h1t⟩

/-- Service `list_active_household_offers`. -/
def list_active_household_offers (db : Db) (limit : ℕ := 100) : List Offer :=
  ((db.offers.filter
      (fun o => o.status = OfferStatus.active ∧ 0 < o.kwh_remaining)).insertionSort
    offerOrder).take limit

/-! ## Provider pricing program (`services.py`, `config.py`) -/

/-- Dataclass `SurgeWindow`. -/
structure SurgeWindow where
  hour : ℤ
  multiplier : ℚ
deriving DecidableEq, Repr

/-- Config `PROVIDER_PRICE_SCHEDULE` (`config.py`). -/
def PROVIDER_PRICE_SCHEDULE : List (ℤ × ℤ × ℚ) :=
  [(0, 6, 9/10), (6, 17, 1), (17, 22, 6/5), (22, 24, 1)]

/-- Config `PROVIDER_BASE_PRICE_EUR_PER_KWH` (`config.py`). -/
def PROVIDER_BASE_PRICE_EUR_PER_KWH : ℚ := 22/100

/-- Config `PROVIDER_NAMES` (`config.py`). -/
def PROVIDER_NAMES : List String := ["DEI", "HERON"]

/-- The schedule scan inside `provider_multiplier_now`: `m` starts at
`1.0` and the loop `break`s at the first tuple with
`start_h <= hour < end_h`. -/
def schedule_multiplier : List (ℤ × ℤ × ℚ) → ℤ → ℚ
  | [], _ => 1
  | (start_h, end_h, mult) :: rest, hour =>
    if start_h ≤ hour ∧ hour < end_h then mult else schedule_multiplier rest hour

/-- Service `provider_multiplier_now`, stated over the resolved local hour
of day (`current_hour_24` is an OS localtime call outside the core).  The
process-lifetime surge singleton `_SURGE` is the explicit parameter
`surge`. -/
def provider_multiplier_now (schedule : List (ℤ × ℤ × ℚ)) (surge : Option SurgeWindow)
    (hour : ℤ) : ℚ :=
  match surge with
  | some sw => if sw.hour = hour then sw.multiplier else schedule_multiplier schedule hour
  | none => schedule_multiplier schedule hour

/-- Service `provider_price_eur_per_kwh_now`: base times multiplier,
rounded to 4 decimals. -/
def provider_price_eur_per_kwh_now (base : ℚ) (schedule : List (ℤ × ℤ × ℚ))
    (surge : Option SurgeWindow) (hour : ℤ) : ℚ :=
  round4 (base * provider_multiplier_now schedule surge hour)

/-! ## Unified marketplace (`services.py`, `schemas.py`) -/

/-- Schema `MarketItemOut`: the discriminated union the market returns. -/
structure MarketItemOut where
  kind : String
  virtual_id : Option String
  provider_name : Option String
  current_multiplier : Option ℚ
  offer_id : Option ℕ
  seller_id : Option ℕ
  kwh_remaining : Option ℚ
  price_eur_per_kwh : ℚ
deriving DecidableEq, Repr

/-- Service `list_provider_market_items`: one virtual item per configured
provider, all at the current computed price. -/
def list_provider_market_items (surge : Option SurgeWindow) (hour : ℤ) : List MarketItemOut :=
  PROVIDER_NAMES.map (fun name =>
    { kind := "provider",
      virtual_id := some ("provider-" ++ name),
      provider_name := some name,
      current_multiplier :=
        some (provider_multiplier_now PROVIDER_PRICE_SCHEDULE surge hour),
      offer_id := none, seller_id := none, kwh_remaining := none,
      price_eur_per_kwh :=
        provider_price_eur_per_kwh_now PROVIDER_BASE_PRICE_EUR_PER_KWH
          PROVIDER_PRICE_SCHEDULE surge hour })

/-- Config `PROVIDER_VIRTUAL_PRICING` (`config.py`). -/
def PROVIDER_VIRTUAL_PRICING : Bool := true

/-- Final in-place sort of `list_market_items`
(`items.sort(key=lambda it: it.price_eur_per_kwh)`, a stable sort). -/
def marketOrder (i1 i2 : MarketItemOut) : Prop :=
  i1.price_eur_per_kwh ≤ i2.price_eur_per_kwh

instance : DecidableRel marketOrder := fun i1 i2 => by
  unfold marketOrder; infer_instance

instance : IsTotal MarketItemOut marketOrder :=
  ⟨fun i1 i2 => le_total i1.price_eur_per_kwh i2.price_eur_per_kwh⟩

instance : IsTrans MarketItemOut marketOrder :=
  ⟨fun _ _ _ h1 h2 => le_trans h1 h2⟩

/-- Service `list_market_items`: provider virtual items plus household
offers, sorted ascending by price. -/
def list_market_items (db : Db) (surge : Option SurgeWindow) (hour : ℤ)
    (limit_household : ℕ := 100) : List MarketItemOut :=
  ((if PROVIDER_VIRTUAL_PRICING then list_provider_market_items surge hour else []) ++
    (list_active_household_offers db limit_household).map (fun o =>
      ({ kind := "household",
         virtual_id := none, provider_name := none, current_multiplier := none,
         offer_id := some o.id, seller_id := some o.seller_id,
         kwh_remaining := some o.kwh_remaining,
         price_eur_per_kwh := o.price_eur_per_kwh } : MarketItemOut))).insertionSort marketOrder

/-! ## Settlement engine (`services.py`, `accept_offer`) -/

/-- Update of one offer row keyed by primary key. -/
def setOfferState (offers : List Offer) (oid : ℕ) (rem : ℚ) (st : OfferStatus) : List Offer :=
  offers.map (fun o => if o.id = oid then { o with kwh_remaining := rem, status := st } else o)

/-- Service `accept_offer`, at session granularity.  The function mirrors
the source line by line; on an exception the `error` carries the
in-session (uncommitted) state at the moment of the raise, so that
statements about partial mutation are about the actual code path.

The final branch follows the source exactly: after
`offer.kwh_remaining = round(offer.kwh_remaining - qty, 4)`, if the new
remaining is `<= 1e-9` the code sets `offer.kwh_remaining = 0.0` and then
evaluates `OfferStatus.completed.value`; `OfferStatus` (in `models.py`)
has no `completed` member, so this raises `AttributeError` before the
`Trade` row is built and before `db.commit()`. -/
def accept_offer_session (db : Db) (buyer_id offer_id : ℕ) (kwh : ℚ)
    (tx_hash : Option String) (now : ℤ) : Except (PyErr × Db) (Trade × Db) :=
  if kwh ≤ 0 then .error (.valueError .kwhMustBePositive, db)
  else
    match db.getUser buyer_id with
    | none => .error (.valueError .buyerNotFound, db)
    | some buyer =>
      match db.getOffer offer_id with
      | none => .error (.valueError .offerNotAvailable, db)
      | some offer =>
        if offer.status ≠ OfferStatus.active then
          .error (.valueError .offerNotAvailable, db)
        else if offer.seller_id = buyer_id then
          .error (.valueError .cannotBuyOwnOffer, db)
        else
          let qty := min kwh offer.kwh_remaining
          if qty ≤ 0 then .error (.valueError .noRemainingKwh, db)
          else
            let cost := round4 (qty * offer.price_eur_per_kwh)
            if buyer.balance_eur + eps9 < cost then
              .error (.valueError .insufficientFunds, db)
            else
              let db1 :=
                { db with users :=
                    setUserBalance db.users buyer_id (round4 (buyer.balance_eur - cost)) }
              match db1.getUser offer.seller_id with
              | none => .error (.attributeError, db1)
              | some seller =>
                let db2 :=
                  { db1 with users :=
                      (setUserBalance db1.users offer.seller_id
                        (round4 (seller.balance_eur + cost))) }
                let rem : ℚ := round4 (offer.kwh_remaining - qty)
                if rem ≤ eps9 then
                  .error (.attributeError,
                    { db2 with offers := setOfferState db2.offers offer_id 0 offer.status })
                else
                  let db3 :=
                    { db2 with offers := setOfferState db2.offers offer_id rem offer.status }
                  let tr : Trade :=
                    { id := db.next_trade_id, offer_id := offer_id, buyer_id := buyer_id,
                      kwh := qty, total_eur := cost, ts := now, tx_hash := tx_hash }
                  .ok (tr, { db3 with trades := db3.trades ++ [tr],
                                      next_trade_id := db3.next_trade_id + 1 })

/-- Durable effect of `accept_offer`: the session only reaches
`db.commit()` on the success path, and the app configures
`autoflush=False, autocommit=False`, so a raised exception leaves the
stored database exactly as it was. -/
def accept_offer (db : Db) (buyer_id offer_id : ℕ) (kwh : ℚ)
    (tx_hash : Option String) (now : ℤ) : Except PyErr (Trade × Db) :=
  match accept_offer_session db buyer_id offer_id kwh tx_hash now with
  | .error (e, _) => .error e
  | .ok (tr, db') => .ok (tr, db')

/-! ## Sequences of core operations -/

/-- One invocation of a core mutating operation, carrying the wall-clock
instant at which it runs. -/
inductive Op
  | record (user_id : ℕ) (prod cons : ℚ) (ts : ℤ)
  | create (seller_id : ℕ) (kwh price : ℚ) (now : ℤ)
  | accept (buyer_id offer_id : ℕ) (kwh : ℚ) (tx : Option String) (now : ℤ)
deriving DecidableEq, Repr

/-- Durable state after one operation: a failing call commits nothing. -/
def applyOp (db : Db) : Op → Db
  | .record uid p c ts =>
    match record_meter_sample db uid p c ts with
    | .ok (_, db') => db'
    | .error _ => db
  | .create sid kwh price now =>
    match create_offer db sid kwh price now none with
    | .ok (_, db') => db'
    | .error _ => db
  | .accept bid oid kwh tx now =>
    match accept_offer db bid oid kwh tx now with
    | .ok (_, db') => db'
    | .error _ => db

/-- Durable state after a sequence of core operations. -/
def runOps (db : Db) (ops : List Op) : Db := ops.foldl applyOp db

/-! ## Pricing Oracle theorems -/

/-- Helper: the schedule scan returns the multiplier of the first matching
interval in declaration order (the loop `break`s at the first hit). -/
theorem schedule_multiplier_eq_first_match :
    ∀ (schedule : List (ℤ × ℤ × ℚ)) (hour : ℤ) (i : ℕ) (hi : i < schedule.length),
    ((schedule.get ⟨i, hi⟩).1 ≤ hour ∧ hour < (schedule.get ⟨i, hi⟩).2.1) →
    (∀ t ∈ schedule.take i, ¬ (t.1 ≤ hour ∧ hour < t.2.1)) →
    schedule_multiplier schedule hour = (schedule.get ⟨i, hi⟩).2.2
  | [], _, i, hi, _, _ => absurd hi (by simp)
  | (s, e, m) :: rest, hour, 0, _, hmatch, _ => by
    simp only [List.get] at hmatch ⊢
    unfold schedule_multiplier
    rw [if_pos hmatch]
  | (s, e, m) :: rest, hour, i + 1, hi, hmatch, hfirst => by
    have hhead : ¬ (s ≤ hour ∧ hour < e) := by
      have := hfirst (s, e, m) (by simp [List.take_cons])
      exact this
    unfold schedule_multiplier
    rw [if_neg hhead]
    exact schedule_multiplier_eq_first_match rest hour i (by simpa using hi)
      (by simpa using hmatch)
      (fun t ht => hfirst t (by simp [List.take_cons]; exact Or.inr ht))

/-- C6, counterexample: with the overlapping schedule
`[(0,24,2.0), (0,24,3.0)]` and no surge, every hour lies in both
intervals; the resolved multiplier at hour 5 is the multiplier `2.0` of
the FIRST matching interval, not the `3.0` of the last one as the claim
states. -/
theorem provider_multiplier_overlap_not_last :
    provider_multiplier_now [((0:ℤ), (24:ℤ), (2:ℚ)), ((0:ℤ), (24:ℤ), (3:ℚ))] none 5 = 2 ∧
    ¬ provider_multiplier_now [((0:ℤ), (24:ℤ), (2:ℚ)), ((0:ℤ), (24:ℤ), (3:ℚ))] none 5 = 3 := by
  constructor <;> norm_num [provider_multiplier_now, schedule_multiplier]

/-- C6, amended: for every hour that lies inside two or more overlapping
intervals of the schedule, `provider_multiplier_now` returns the
multiplier of the FIRST matching interval in declaration order (the loop
breaks at the first hit); the surge override must not apply. -/
theorem provider_multiplier_first_match (schedule : List (ℤ × ℤ × ℚ))
    (surge : Option SurgeWindow) (hour : ℤ) (i : ℕ) (hi : i < schedule.length)
    (hmatch : (schedule.get ⟨i, hi⟩).1 ≤ hour ∧ hour < (schedule.get ⟨i, hi⟩).2.1)
    (hfirst : ∀ t ∈ schedule.take i, ¬ (t.1 ≤ hour ∧ hour < t.2.1))
    (hsurge : ∀ sw, surge = some sw → sw.hour ≠ hour) :
    provider_multiplier_now schedule surge hour = (schedule.get ⟨i, hi⟩).2.2 := by
  have hbase := schedule_multiplier_eq_first_match schedule hour i hi hmatch hfirst
  cases surge with
  | none => exact hbase
  | some sw =>
    simp only [provider_multiplier_now]
    rw [if_neg (hsurge sw rfl)]
    exact hbase

/-- Witness for the amended C6 theorem: at hour 5 the second interval of
`[(0,3,1/2), (4,8,7/4), (4,9,5/2)]` is the first match, so the multiplier
is `7/4` even though the third interval also matches. -/
theorem provider_multiplier_first_match_witness :
    provider_multiplier_now [((0:ℤ), (3:ℤ), (1/2:ℚ)), ((4:ℤ), (8:ℤ), (7/4:ℚ)),
      ((4:ℤ), (9:ℤ), (5/2:ℚ))] none 5 = 7/4 := by
  have h := provider_multiplier_first_match
    [((0:ℤ), (3:ℤ), (1/2:ℚ)), ((4:ℤ), (8:ℤ), (7/4:ℚ)), ((4:ℤ), (9:ℤ), (5/2:ℚ))]
    none 5 1 (by norm_num)
    (by constructor <;> norm_num)
    (by
      intro t ht
      simp only [List.take] at ht
      simp only [List.mem_singleton] at ht
      subst ht
      decide)
    (by intro sw hsw; cases hsw)
  simpa using h

/-- C9: the provider price at any resolved hour is the base price times
the schedule multiplier, rounded to 4 decimal places; with the configured
schedule, base price `0.22`, and surge disabled, hour 18 yields exactly
`0.2640`. -/
theorem provider_price_formula (hour : ℤ) :
    provider_price_eur_per_kwh_now PROVIDER_BASE_PRICE_EUR_PER_KWH
        PROVIDER_PRICE_SCHEDULE none hour =
      round4 (PROVIDER_BASE_PRICE_EUR_PER_KWH *
        provider_multiplier_now PROVIDER_PRICE_SCHEDULE none hour) ∧
    (hour = 18 →
      provider_price_eur_per_kwh_now PROVIDER_BASE_PRICE_EUR_PER_KWH
        PROVIDER_PRICE_SCHEDULE none hour = 264/1000) := by
  constructor
  · rfl
  · rintro rfl
    norm_num [provider_price_eur_per_kwh_now, provider_multiplier_now,
      PROVIDER_PRICE_SCHEDULE, PROVIDER_BASE_PRICE_EUR_PER_KWH,
      schedule_multiplier, round4, pyRoundInt]

/-- Witness for C9 at hour 18. -/
theorem provider_price_formula_witness :
    provider_price_eur_per_kwh_now PROVIDER_BASE_PRICE_EUR_PER_KWH
      PROVIDER_PRICE_SCHEDULE none 18 = 264/1000 :=
  (provider_price_formula 18).2 rfl

/-- C10: at an hour covered by no schedule interval and different from
the surge hour, the multiplier defaults to `1.0` (the initial value of
`m`), so the price is the base price; no exception is raised. -/
theorem provider_multiplier_uncovered_default (schedule : List (ℤ × ℤ × ℚ))
    (surge : Option SurgeWindow) (hour : ℤ)
    (hcov : ∀ t ∈ schedule, ¬ (t.1 ≤ hour ∧ hour < t.2.1))
    (hsurge : ∀ sw, surge = some sw → sw.hour ≠ hour) :
    provider_multiplier_now schedule surge hour = 1 := by
  have hbase : schedule_multiplier schedule hour = 1 := by
    induction schedule with
    | nil => rfl
    | cons t rest ih =>
      obtain ⟨s, e, m⟩ := t
      unfold schedule_multiplier
      rw [if_neg (hcov (s, e, m) (by simp))]
      exact ih (fun t ht => hcov t (List.mem_cons_of_mem _ ht))
  cases surge with
  | none => exact hbase
  | some sw =>
    simp only [provider_multiplier_now]
    rw [if_neg (hsurge sw rfl)]
    exact hbase

/-- Witness for C10: the configured schedule has a gap at no hour, so use
a gapped schedule; hour 10 is uncovered by `[(0,6,0.9)]` and there is no
surge, hence multiplier 1. -/
theorem provider_multiplier_uncovered_default_witness :
    provider_multiplier_now [((0:ℤ), (6:ℤ), (9/10:ℚ))] none 10 = 1 :=
  provider_multiplier_uncovered_default [((0:ℤ), (6:ℤ), (9/10:ℚ))] none 10
    (by
      intro t ht
      simp only [List.mem_singleton] at ht
      subst ht
      decide)
    (by intro sw hsw; cases hsw)

/-! ## Settlement engine theorems -/

/-- C1: whenever `accept_offer` fails at one of the validation steps 1-6
(non-positive requested energy, missing buyer, missing or non-active
offer, self-trade, exhausted offer, insufficient funds — exactly the
`ValueError` raises of the source), even the in-session state at the
moment of the raise is the untouched input database: all balances, the
offer, and the trades are unchanged, because every check precedes the
first mutation in the code. -/
theorem accept_offer_fail_steps_noop (db : Db) (buyer_id offer_id : ℕ) (kwh : ℚ)
    (tx : Option String) (now : ℤ) (m : ValMsg) (db' : Db)
    (h : accept_offer_session db buyer_id offer_id kwh tx now =
      .error (.valueError m, db')) :
    db' = db := by
  simp only [accept_offer_session] at h
  repeat' split at h
  all_goals simp_all

/-- Witness for C1, Scenario D: a buyer with balance 0.10 accepting a
3 kWh offer at 0.10/kWh fails with InsufficientFunds, and the session
state returned at the raise is exactly the input database. -/
def scD_db : Db :=
  { users :=
      [{ id := 1, email := "buyer", wallet := "", role := UserRole.consumer,
         balance_eur := 1/10 },
       { id := 2, email := "seller", wallet := "", role := UserRole.producer,
         balance_eur := 0 }],
    meter_samples := [],
    offers := [{ id := 1, seller_id := 2, kwh_total := 3, kwh_remaining := 3,
                 price_eur_per_kwh := 1/10, status := OfferStatus.active,
                 created_ts := 0 }],
    trades := [], next_sample_id := 1, next_offer_id := 2, next_trade_id := 1 }

theorem accept_offer_fail_steps_noop_witness :
    accept_offer_session scD_db 1 1 3 none 7 =
      .error (.valueError .insufficientFunds, scD_db) ∧ scD_db = scD_db := by
  have hev : accept_offer_session scD_db 1 1 3 none 7 =
      .error (.valueError .insufficientFunds, scD_db) := by
    norm_num [accept_offer_session, scD_db, Db.getUser, Db.getOffer,
      List.find?, eps9, round4, pyRoundInt]
  exact ⟨hev, accept_offer_fail_steps_noop scD_db 1 1 3 none 7 .insufficientFunds scD_db hev⟩

/-- C3, failing input (Scenario C): buyer with balance 1.00 accepts all
3 kWh at 0.10/kWh.  The decremented remaining is 0 ≤ epsilon, so the code
enters the fully-filled branch and evaluates `OfferStatus.completed`,
which does not exist: the call raises `AttributeError` instead of
completing, no `Trade` is created, and nothing is committed (the durable
state is unchanged). -/
def scC_db : Db :=
  { users :=
      [{ id := 1, email := "buyer", wallet := "", role := UserRole.consumer,
         balance_eur := 1 },
       { id := 2, email := "seller", wallet := "", role := UserRole.producer,
         balance_eur := 0 }],
    meter_samples := [],
    offers := [{ id := 1, seller_id := 2, kwh_total := 3, kwh_remaining := 3,
                 price_eur_per_kwh := 1/10, status := OfferStatus.active,
                 created_ts := 0 }],
    trades := [], next_sample_id := 1, next_offer_id := 2, next_trade_id := 1 }

theorem accept_offer_full_fill_raises :
    accept_offer scC_db 1 1 3 none 100 = .error PyErr.attributeError ∧
    applyOp scC_db (Op.accept 1 1 3 none 100) = scC_db := by
  have hev : accept_offer scC_db 1 1 3 none 100 = .error PyErr.attributeError := by
    norm_num [accept_offer, accept_offer_session, scC_db, Db.getUser, Db.getOffer,
      List.find?, setUserBalance, setOfferState, eps9, round4, pyRoundInt]
  refine ⟨hev, ?_⟩
  simp only [applyOp]
  rw [hev]

/-- Helper: primary-key lookup after an update of one user row. -/
theorem find_setUserBalance (users : List User) (uid uid' : ℕ) (bal : ℚ) :
    (setUserBalance users uid bal).find? (fun u => u.id = uid') =
      if uid' = uid then
        (users.find? (fun u => u.id = uid')).map (fun u => { u with balance_eur := bal })
      else users.find? (fun u => u.id = uid') := by
  induction users with
  | nil => by_cases h : uid' = uid <;> simp [setUserBalance, h]
  | cons u us ih =>
    simp only [setUserBalance, List.map_cons] at ih ⊢
    by_cases h1 : u.id = uid
    · rw [if_pos h1]
      by_cases h2 : u.id = uid'
      · have h3 : uid' = uid := by rw [← h2, h1]
        rw [if_pos h3]
        rw [List.find?_cons_of_pos _ (by simp [h2]),
          List.find?_cons_of_pos _ (by simp [h2])]
        simp
      · have h3 : ¬ uid' = uid := fun hh => h2 (by rw [h1, ← hh])
        rw [if_neg h3]
        rw [List.find?_cons_of_neg _ (by simp [h2]),
          List.find?_cons_of_neg _ (by simp [h2])]
        rw [ih, if_neg h3]
    · rw [if_neg h1]
      by_cases h2 : u.id = uid'
      · have h3 : ¬ uid' = uid := fun hh => h1 (h2.trans hh)
        rw [if_neg h3]
        rw [List.find?_cons_of_pos _ (by simp [h2]),
          List.find?_cons_of_pos _ (by simp [h2])]
      · rw [List.find?_cons_of_neg _ (by simp [h2]), ih,
          List.find?_cons_of_neg _ (by simp [h2])]

/-- Helper: sum of a list of grid-aligned rationals is grid-aligned. -/
theorem onGrid_sum {l : List ℚ} (h : ∀ x ∈ l, onGrid x) : onGrid l.sum := by
  induction l with
  | nil => simpa using onGrid_zero
  | cons x xs ih =>
    rw [List.sum_cons]
    exact onGrid_add (h x (by simp)) (ih (fun y hy => h y (List.mem_cons_of_mem _ hy)))

/-- C2: on every successful `accept_offer`, the buyer balance decreases by
exactly the trade total and the seller balance increases by exactly the
same amount, with `total = round4(quantity * unit price)` and no fee; the
hypothesis that stored balances sit on the 4-decimal grid is an invariant
of the system (balances are only ever written through `round(., 4)`). -/
theorem accept_offer_conservation (db : Db) (buyer_id offer_id : ℕ) (kwh : ℚ)
    (tx : Option String) (now : ℤ) (tr : Trade) (db' : Db)
    (hgrid : ∀ u ∈ db.users, onGrid u.balance_eur)
    (h : accept_offer db buyer_id offer_id kwh tx now = .ok (tr, db')) :
    ∃ buyer offer seller,
      db.getUser buyer_id = some buyer ∧
      db.getOffer offer_id = some offer ∧
      db.getUser offer.seller_id = some seller ∧
      tr.total_eur = round4 (min kwh offer.kwh_remaining * offer.price_eur_per_kwh) ∧
      (db'.getUser buyer_id).map User.balance_eur =
        some (buyer.balance_eur - tr.total_eur) ∧
      (db'.getUser offer.seller_id).map User.balance_eur =
        some (seller.balance_eur + tr.total_eur) := by
  have hsess : accept_offer_session db buyer_id offer_id kwh tx now = .ok (tr, db') := by
    unfold accept_offer at h
    revert h
    match hs : accept_offer_session db buyer_id offer_id kwh tx now with
    | .error (e, dbx) => intro h; exact absurd h (by simp)
    | .ok (tr0, db0) => intro h; simpa using h
  clear h
  simp only [accept_offer_session] at hsess
  repeat' split at hsess
  all_goals try (exact Except.noConfusion hsess)
  rename_i hkwh xu buyer heqU xo offer heqO hstatus hself hqty hfunds xs seller heqS hrem
  rw [Except.ok.injEq, Prod.mk.injEq] at hsess
  obtain ⟨htr, hdb⟩ := hsess
  simp only [Db.getUser] at heqU heqS
  have hsellerFind : db.users.find? (fun u => u.id = offer.seller_id) = some seller := by
    rw [find_setUserBalance, if_neg hself] at heqS
    exact heqS
  have hbgrid : onGrid buyer.balance_eur :=
    hgrid buyer (List.mem_of_find?_eq_some heqU)
  have hsgrid : onGrid seller.balance_eur :=
    hgrid seller (List.mem_of_find?_eq_some hsellerFind)
  have hcost : onGrid (round4 ((kwh ⊓ offer.kwh_remaining) * offer.price_eur_per_kwh)) :=
    round4_onGrid _
  refine ⟨buyer, offer, seller, ?_, heqO, ?_, ?_, ?_, ?_⟩
  · simp only [Db.getUser]
    exact heqU
  · simp only [Db.getUser]
    exact hsellerFind
  · rw [← htr]
  · -- buyer balance after the two updates
    rw [← hdb, ← htr]
    simp only [Db.getUser]
    rw [find_setUserBalance, if_neg (fun hc => hself hc.symm),
      find_setUserBalance, if_pos rfl, heqU]
    simp only [Option.map_some']
    rw [round4_eq_self (onGrid_sub hbgrid hcost)]
  · -- seller balance after the two updates
    rw [← hdb, ← htr]
    simp only [Db.getUser]
    rw [find_setUserBalance, if_pos rfl, find_setUserBalance, if_neg hself,
      hsellerFind]
    simp only [Option.map_some']
    rw [round4_eq_self (onGrid_add hsgrid hcost)]

/-- Witness database for C2: buyer (id 1) with balance 1.00, producer
seller (id 2) with balance 0, one active 3 kWh offer at 0.10/kWh. -/
def C2w_db : Db :=
  { users :=
      [{ id := 1, email := "buyer", wallet := "", role := UserRole.consumer,
         balance_eur := 1 },
       { id := 2, email := "seller", wallet := "", role := UserRole.producer,
         balance_eur := 0 }],
    meter_samples := [],
    offers := [{ id := 1, seller_id := 2, kwh_total := 3, kwh_remaining := 3,
                 price_eur_per_kwh := 1/10, status := OfferStatus.active,
                 created_ts := 0 }],
    trades := [], next_sample_id := 1, next_offer_id := 2, next_trade_id := 1 }

/-- Trade produced by the witness call `accept_offer C2w_db 1 1 2 none 50`. -/
def C2w_trade : Trade :=
  { id := 1, offer_id := 1, buyer_id := 1, kwh := 2, total_eur := 1/5, ts := 50,
    tx_hash := none }

/-- Database after the witness call: buyer debited to 0.80, seller
credited to 0.20, offer remaining decremented to 1. -/
def C2w_db' : Db :=
  { users :=
      [{ id := 1, email := "buyer", wallet := "", role := UserRole.consumer,
         balance_eur := 4/5 },
       { id := 2, email := "seller", wallet := "", role := UserRole.producer,
         balance_eur := 1/5 }],
    meter_samples := [],
    offers := [{ id := 1, seller_id := 2, kwh_total := 3, kwh_remaining := 1,
                 price_eur_per_kwh := 1/10, status := OfferStatus.active,
                 created_ts := 0 }],
    trades := [C2w_trade], next_sample_id := 1, next_offer_id := 2, next_trade_id := 2 }

theorem accept_offer_conservation_witness :
    ∃ buyer offer seller,
      C2w_db.getUser 1 = some buyer ∧
      C2w_db.getOffer 1 = some offer ∧
      C2w_db.getUser offer.seller_id = some seller ∧
      C2w_trade.total_eur = round4 (min 2 offer.kwh_remaining * offer.price_eur_per_kwh) ∧
      (C2w_db'.getUser 1).map User.balance_eur =
        some (buyer.balance_eur - C2w_trade.total_eur) ∧
      (C2w_db'.getUser offer.seller_id).map User.balance_eur =
        some (seller.balance_eur + C2w_trade.total_eur) :=
  accept_offer_conservation C2w_db 1 1 2 none 50 C2w_trade C2w_db'
    (by
      intro u hu
      simp only [C2w_db, List.mem_cons, List.not_mem_nil, or_false] at hu
      rcases hu with rfl | rfl <;> norm_num [onGrid])
    (by
      norm_num [accept_offer, accept_offer_session, C2w_db, C2w_db', C2w_trade,
        Db.getUser, Db.getOffer, List.find?, setUserBalance, setOfferState,
        eps9, round4, pyRoundInt])

/-! ## Offer Book theorems -/

/-- Counterexample database for C7: one producer with a stored 12-hour
surplus of 1 kWh and no offers. -/
def C7cex_db : Db :=
  { users := [{ id := 1, email := "p", wallet := "", role := UserRole.producer,
                balance_eur := 0 }],
    meter_samples := [{ id := 1, user_id := 1, production_kwh := 1,
                        consumption_kwh := 0, ts := 0 }],
    offers := [], trades := [], next_sample_id := 2, next_offer_id := 1,
    next_trade_id := 1 }

/-- C7, counterexample: requesting 0.00012 kWh (admissible: well under
the 1 kWh surplus) succeeds, but the created offer records
`total = remaining = round(0.00012, 4) = 0.0001`, not the requested
energy itself.  The input is chosen away from any decimal midpoint, so
CPython float rounding and the rational model agree on it. -/
theorem create_offer_total_not_requested :
    ((create_offer C7cex_db 1 (12/100000) (1/10) 0 none).toOption.map
      (fun p => p.1.kwh_total)) = some (1/10000) ∧ ¬ ((1/10000 : ℚ) = 12/100000) := by
  constructor
  · norm_num [create_offer, C7cex_db, Db.getUser, List.find?,
      compute_surplus_last_hours, list_meter_series, compute_reserved_surplus_kwh,
      sampleOrder, eps9, round4, pyRoundInt, Except.toOption]
  · norm_num

/-- C7, amended: `create_offer` fails when the seller's role is neither
producer nor both; it fails whenever the requested energy exceeds
`max(0, windowedSurplus - reserved)` by more than the 1e-9 tolerance; and
on success the offer records `total = remaining = round4(requested
energy)` (the requested energy rounded to 4 decimal places, which differs
from the raw request off the grid), status active, and the creation
timestamp. -/
theorem create_offer_spec (db : Db) (seller_id : ℕ) (kwh price : ℚ) (now : ℤ)
    (seller : User) (hs : db.getUser seller_id = some seller) :
    (seller.role ≠ UserRole.producer → seller.role ≠ UserRole.both →
      create_offer db seller_id kwh price now none =
        .error (.valueError .onlyProducersCanSell)) ∧
    (max 0 (round4 (compute_surplus_last_hours db seller_id now 12 -
        compute_reserved_surplus_kwh db seller_id)) + eps9 < kwh →
      ∃ m, create_offer db seller_id kwh price now none = .error (.valueError m)) ∧
    (∀ offer db', create_offer db seller_id kwh price now none = .ok (offer, db') →
      offer.kwh_total = round4 kwh ∧ offer.kwh_remaining = round4 kwh ∧
      offer.status = OfferStatus.active ∧ offer.created_ts = now ∧
      db'.offers = db.offers ++ [offer]) := by
  refine ⟨?_, ?_, ?_⟩
  · intro h1 h2
    simp only [create_offer, hs]
    rw [if_pos ⟨h1, h2⟩]
  · intro hexceed
    by_cases hrole : seller.role ≠ UserRole.producer ∧ seller.role ≠ UserRole.both
    · exact ⟨.onlyProducersCanSell, by simp only [create_offer, hs]; rw [if_pos hrole]⟩
    · by_cases hpos : kwh ≤ 0 ∨ price ≤ 0
      · refine ⟨.kwhAndPriceMustBePositive, ?_⟩
        simp only [create_offer, hs]
        rw [if_neg hrole, if_pos hpos]
      · refine ⟨.notEnoughSurplus, ?_⟩
        have hle : round4 (compute_surplus_last_hours db seller_id now 12 -
            compute_reserved_surplus_kwh db seller_id) ≤
            max 0 (round4 (compute_surplus_last_hours db seller_id now 12 -
              compute_reserved_surplus_kwh db seller_id)) := le_max_right _ _
        have hcond : round4 (compute_surplus_last_hours db seller_id now 12 -
            compute_reserved_surplus_kwh db seller_id) + eps9 < kwh := by linarith
        simp only [create_offer, hs]
        rw [if_neg hrole, if_neg hpos, if_pos hcond]
  · intro offer db' h
    simp only [create_offer, hs] at h
    repeat' split at h
    all_goals try (exact Except.noConfusion h)
    rw [Except.ok.injEq, Prod.mk.injEq] at h
    obtain ⟨ho, hdb⟩ := h
    subst ho
    subst hdb
    refine ⟨rfl, rfl, rfl, rfl, rfl⟩

/-- Offer created by the witness call `create_offer C7cex_db 1 (1/2) (1/10) 5`. -/
def C7w_offer : Offer :=
  { id := 1, seller_id := 1, kwh_total := 1/2, kwh_remaining := 1/2,
    price_eur_per_kwh := 1/10, status := OfferStatus.active, created_ts := 5 }

/-- Database after the witness call for C7. -/
def C7w_db' : Db :=
  { users := [{ id := 1, email := "p", wallet := "", role := UserRole.producer,
                balance_eur := 0 }],
    meter_samples := [{ id := 1, user_id := 1, production_kwh := 1,
                        consumption_kwh := 0, ts := 0 }],
    offers := [C7w_offer], trades := [], next_sample_id := 2, next_offer_id := 2,
    next_trade_id := 1 }

theorem create_offer_spec_witness :
    C7w_offer.kwh_total = round4 (1/2) ∧ C7w_offer.kwh_remaining = round4 (1/2) ∧
    C7w_offer.status = OfferStatus.active ∧ C7w_offer.created_ts = 5 ∧
    C7w_db'.offers = C7cex_db.offers ++ [C7w_offer] :=
  (create_offer_spec C7cex_db 1 (1/2) (1/10) 5
      { id := 1, email := "p", wallet := "", role := UserRole.producer,
        balance_eur := 0 }
      (by norm_num [C7cex_db, Db.getUser, List.find?])).2.2 C7w_offer C7w_db'
    (by norm_num [create_offer, C7cex_db, C7w_offer, C7w_db', Db.getUser,
      List.find?, compute_surplus_last_hours, list_meter_series,
      compute_reserved_surplus_kwh, sampleOrder, eps9, round4, pyRoundInt])

/-- C8: `list_active_household_offers` returns only offers that are
active with strictly positive remaining, sorted by ascending unit price
with descending creation timestamp as tie-break; consequently an offer
whose remaining reached 0 never appears there, nor among the household
items of `list_market_items`. -/
theorem list_active_offers_spec (db : Db) (limit : ℕ) (surge : Option SurgeWindow)
    (hour : ℤ) :
    (∀ o ∈ list_active_household_offers db limit,
        o.status = OfferStatus.active ∧ 0 < o.kwh_remaining) ∧
    List.Sorted offerOrder (list_active_household_offers db limit) ∧
    (∀ it ∈ list_market_items db surge hour limit, it.kind = "household" →
        ∃ q, it.kwh_remaining = some q ∧ 0 < q) := by
  have h1 : ∀ o ∈ list_active_household_offers db limit,
      o.status = OfferStatus.active ∧ 0 < o.kwh_remaining := by
    intro o ho
    unfold list_active_household_offers at ho
    have ho2 := List.take_subset _ _ ho
    rw [List.mem_insertionSort] at ho2
    have ho3 := List.of_mem_filter ho2
    simpa using ho3
  refine ⟨h1, ?_, ?_⟩
  · unfold list_active_household_offers
    exact List.Pairwise.sublist (List.take_sublist _ _)
      (List.sorted_insertionSort offerOrder _)
  · intro it hit hkind
    unfold list_market_items at hit
    rw [List.mem_insertionSort, List.mem_append] at hit
    rcases hit with hp | hh
    · rw [if_pos (by rfl)] at hp
      unfold list_provider_market_items at hp
      rw [List.mem_map] at hp
      obtain ⟨name, _, rfl⟩ := hp
      exact absurd hkind (by simp)
    · rw [List.mem_map] at hh
      obtain ⟨o, ho, rfl⟩ := hh
      exact ⟨o.kwh_remaining, rfl, (h1 o ho).2⟩

/-- The active offer with positive remaining in the C8 witness database. -/
def C8w_o1 : Offer :=
  { id := 1, seller_id := 1, kwh_total := 2, kwh_remaining := 2,
    price_eur_per_kwh := 1/2, status := OfferStatus.active, created_ts := 10 }

/-- Witness database for C8: three offers by seller 1 — an active one
with remaining 2 at price 0.50, an active one with remaining 0 at the
cheaper price 0.25 (must be hidden), and a closed one (must be hidden). -/
def C8w_db : Db :=
  { users := [{ id := 1, email := "s", wallet := "", role := UserRole.producer,
                balance_eur := 0 }],
    meter_samples := [],
    offers :=
      [C8w_o1,
       { id := 2, seller_id := 1, kwh_total := 1, kwh_remaining := 0,
         price_eur_per_kwh := 1/4, status := OfferStatus.active, created_ts := 3 },
       { id := 3, seller_id := 1, kwh_total := 1, kwh_remaining := 1,
         price_eur_per_kwh := 1/10, status := OfferStatus.closed, created_ts := 4 }],
    trades := [], next_sample_id := 1, next_offer_id := 4, next_trade_id := 1 }

theorem list_active_offers_spec_witness :
    C8w_o1.status = OfferStatus.active ∧ (0:ℚ) < C8w_o1.kwh_remaining :=
  (list_active_offers_spec C8w_db 100 none 0).1 C8w_o1
    (by norm_num [list_active_household_offers, C8w_db, C8w_o1, offerOrder,
      List.insertionSort, List.orderedInsert])

/-! ## Cross-entity invariant (Surplus Ledger vs Offer Book) -/

/-- Sum of `remaining` over one seller's currently-active offers (the raw
quantity the cross-entity invariant speaks about;
`compute_reserved_surplus_kwh` is its 4-decimal rounding). -/
def seller_active_remaining (db : Db) (seller_id : ℕ) : ℚ :=
  ((db.offers.filter
    (fun o => o.seller_id = seller_id ∧ o.status = OfferStatus.active)).map
      (fun o => o.kwh_remaining)).sum

/-- Initial database for the C4 counterexample: a producer (id 1) and a
second household (id 2), no readings, no offers. -/
def C4cex_db0 : Db :=
  { users := [{ id := 1, email := "p", wallet := "", role := UserRole.producer,
                balance_eur := 0 },
              { id := 2, email := "c", wallet := "", role := UserRole.consumer,
                balance_eur := 0 }],
    meter_samples := [], offers := [], trades := [],
    next_sample_id := 1, next_offer_id := 1, next_trade_id := 1 }

/-- Operation sequence for the C4 counterexample: at time 0 the producer
reports a 5 kWh surplus and admissibly offers all of it; the last
operation runs 12 hours and 1 second later, when the reading has aged out
of the window. -/
def C4cex_ops : List Op :=
  [Op.record 1 5 0 0, Op.create 1 5 1 0, Op.record 2 0 0 43201]

/-- C4, counterexample: after the (entirely successful) sequence above,
seller 1 still has 5 kWh reserved in an active offer while the 12-hour
windowed surplus evaluated at the time of the last operation is 0 — the
claimed at-all-times invariant fails as soon as wall-clock time passes
the window. -/
theorem reserved_exceeds_windowed_surplus :
    seller_active_remaining (runOps C4cex_db0 C4cex_ops) 1 = 5 ∧
    compute_surplus_last_hours (runOps C4cex_db0 C4cex_ops) 1 43201 12 = 0 ∧
    ¬ (seller_active_remaining (runOps C4cex_db0 C4cex_ops) 1 ≤
        compute_surplus_last_hours (runOps C4cex_db0 C4cex_ops) 1 43201 12 + 1/10000) := by
  have hrun : runOps C4cex_db0 C4cex_ops =
      { users := [{ id := 1, email := "p", wallet := "", role := UserRole.producer,
                    balance_eur := 0 },
                  { id := 2, email := "c", wallet := "", role := UserRole.consumer,
                    balance_eur := 0 }],
        meter_samples :=
          [{ id := 1, user_id := 1, production_kwh := 5, consumption_kwh := 0, ts := 0 },
           { id := 2, user_id := 2, production_kwh := 0, consumption_kwh := 0, ts := 43201 }],
        offers := [{ id := 1, seller_id := 1, kwh_total := 5, kwh_remaining := 5,
                     price_eur_per_kwh := 1, status := OfferStatus.active,
                     created_ts := 0 }],
        trades := [], next_sample_id := 3, next_offer_id := 2, next_trade_id := 1 } := by
    norm_num [runOps, C4cex_db0, C4cex_ops, applyOp, record_meter_sample,
      create_offer, Db.getUser, List.find?, compute_surplus_last_hours,
      list_meter_series, compute_reserved_surplus_kwh, sampleOrder,
      eps9, round4, pyRoundInt]
  rw [hrun]
  refine ⟨?_, ?_, ?_⟩ <;>
    norm_num [seller_active_remaining, compute_surplus_last_hours,
      list_meter_series, sampleOrder, round4, pyRoundInt]

/-- C4, amended: the invariant holds at the moment of each admission
check — immediately after every successful `create_offer`, the sum of
remaining over the seller's active offers is at most the 12-hour windowed
surplus evaluated at that moment plus `1e-4` (epsilon absorbing the 1e-9
admission tolerance and the 4-decimal rounding of the requested energy);
it need not persist at later times, when readings age out of the window. -/
theorem create_offer_reservation_bound (db : Db) (seller_id : ℕ) (kwh price : ℚ)
    (now : ℤ) (offer : Offer) (db' : Db)
    (hgrid : ∀ o ∈ db.offers, onGrid o.kwh_remaining)
    (h : create_offer db seller_id kwh price now none = .ok (offer, db')) :
    seller_active_remaining db' seller_id ≤
      compute_surplus_last_hours db' seller_id now 12 + 1/10000 := by
  have hSgrid : onGrid (seller_active_remaining db seller_id) := by
    apply onGrid_sum
    intro x hx
    rw [List.mem_map] at hx
    obtain ⟨o, ho, rfl⟩ := hx
    exact hgrid o (List.mem_of_mem_filter ho)
  unfold create_offer at h
  revert h
  match hu : db.getUser seller_id with
  | none => intro h; exact Except.noConfusion h
  | some seller =>
    intro h
    simp only [] at h
    repeat' split at h
    all_goals try (exact Except.noConfusion h)
    rename_i hrole hpos hcheck hconstraint
    rw [Except.ok.injEq, Prod.mk.injEq] at h
    obtain ⟨ho, hdb⟩ := h
    subst hdb
    rw [not_lt] at hcheck
    have hstored_grid : onGrid (compute_surplus_last_hours db seller_id now 12) :=
      round4_onGrid _
    have hres : compute_reserved_surplus_kwh db seller_id =
        seller_active_remaining db seller_id := by
      unfold compute_reserved_surplus_kwh
      exact round4_eq_self hSgrid
    rw [hres] at hcheck
    rw [round4_eq_self (onGrid_sub hstored_grid hSgrid)] at hcheck
    show seller_active_remaining _ seller_id ≤
      compute_surplus_last_hours db seller_id now 12 + 1/10000
    unfold seller_active_remaining at hcheck ⊢
    dsimp only
    rw [List.filter_append, List.map_append, List.sum_append]
    simp only [List.filter_cons, List.filter_nil, decide_eq_true_eq]
    rw [if_pos (by simp)]
    simp only [List.map_cons, List.map_nil, List.sum_cons, List.sum_nil, add_zero]
    have hkle := round4_le kwh
    rw [show eps9 = 1/1000000000 from rfl] at hcheck
    linarith

/-- Witness database for the amended C4 theorem: a producer with a stored
5 kWh surplus and no offers yet. -/
def C4w_db : Db :=
  { users := [{ id := 1, email := "p", wallet := "", role := UserRole.producer,
                balance_eur := 0 }],
    meter_samples := [{ id := 1, user_id := 1, production_kwh := 5,
                        consumption_kwh := 0, ts := 0 }],
    offers := [], trades := [], next_sample_id := 2, next_offer_id := 1,
    next_trade_id := 1 }

/-- Offer created by the witness call `create_offer C4w_db 1 2 1 0`. -/
def C4w_offer : Offer :=
  { id := 1, seller_id := 1, kwh_total := 2, kwh_remaining := 2,
    price_eur_per_kwh := 1, status := OfferStatus.active, created_ts := 0 }

/-- Database after the witness call for the amended C4 theorem. -/
def C4w_db' : Db :=
  { users := [{ id := 1, email := "p", wallet := "", role := UserRole.producer,
                balance_eur := 0 }],
    meter_samples := [{ id := 1, user_id := 1, production_kwh := 5,
                        consumption_kwh := 0, ts := 0 }],
    offers := [C4w_offer], trades := [], next_sample_id := 2, next_offer_id := 2,
    next_trade_id := 1 }

theorem create_offer_reservation_bound_witness :
    seller_active_remaining C4w_db' 1 ≤
      compute_surplus_last_hours C4w_db' 1 0 12 + 1/10000 :=
  create_offer_reservation_bound C4w_db 1 2 1 0 C4w_offer C4w_db'
    (by intro o ho; simp [C4w_db] at ho)
    (by norm_num [create_offer, C4w_db, C4w_offer, C4w_db', Db.getUser,
      List.find?, compute_surplus_last_hours, list_meter_series,
      compute_reserved_surplus_kwh, sampleOrder, eps9, round4, pyRoundInt])

/-! ## Offer invariants under sequences of operations (C5) -/

/-- Updating one offer row does not change the id column. -/
theorem setOfferState_map_id (l : List Offer) (oid : ℕ) (rem : ℚ) (st : OfferStatus) :
    (setOfferState l oid rem st).map (fun o => o.id) = l.map (fun o => o.id) := by
  unfold setOfferState
  rw [List.map_map]
  apply List.map_congr_left
  intro o _
  by_cases h : o.id = oid <;> simp [h]

/-- With unique ids, any member carrying the looked-up id is the found row. -/
theorem mem_eq_of_find_nodup (l : List Offer) (oid : ℕ) (o₀ : Offer)
    (hnd : (l.map (fun o => o.id)).Nodup)
    (hfind : l.find? (fun o => o.id = oid) = some o₀) :
    ∀ o ∈ l, o.id = oid → o = o₀ := by
  induction l with
  | nil => simp at hfind
  | cons a l ih =>
    intro o ho hid
    rw [List.map_cons, List.nodup_cons] at hnd
    obtain ⟨hna, hnd2⟩ := hnd
    rw [List.mem_cons] at ho
    by_cases ha : a.id = oid
    · rw [List.find?_cons_of_pos _ (by simp [ha])] at hfind
      injection hfind with hfind
      subst hfind
      rcases ho with rfl | ho
      · rfl
      · exact absurd (List.mem_map.mpr ⟨o, ho, by rw [hid, ha]⟩) hna
    · rw [List.find?_cons_of_neg _ (by simp [ha])] at hfind
      rcases ho with rfl | ho
      · exact absurd hid ha
      · exact ih hnd2 hfind o ho hid

/-- Invariant of the offers table maintained by every core operation:
bounds and grid alignment of each row, uniqueness of primary keys, and
the autoincrement bound. -/
def OffersInv (db : Db) : Prop :=
  (∀ o ∈ db.offers, 0 ≤ o.kwh_remaining ∧ o.kwh_remaining ≤ o.kwh_total ∧
      onGrid o.kwh_remaining ∧ onGrid o.kwh_total) ∧
  (db.offers.map (fun o => o.id)).Nodup ∧
  (∀ o ∈ db.offers, o.id < db.next_offer_id)

/-- A reading ingestion touches neither the offers table nor its counter. -/
theorem applyOp_record_offers (db : Db) (u : ℕ) (p c : ℚ) (t : ℤ) :
    (applyOp db (.record u p c t)).offers = db.offers ∧
    (applyOp db (.record u p c t)).next_offer_id = db.next_offer_id := by
  simp only [applyOp]
  match hr : record_meter_sample db u p c t with
  | .error e => exact ⟨rfl, rfl⟩
  | .ok (i, db') =>
    simp only [record_meter_sample] at hr
    repeat' split at hr
    all_goals try (exact Except.noConfusion hr)
    rw [Except.ok.injEq, Prod.mk.injEq] at hr
    obtain ⟨hi, hdb⟩ := hr
    subst hdb
    exact ⟨rfl, rfl⟩

/-- Durable effect of one `create_offer` call: either nothing (a failing
call commits nothing) or exactly one appended row with a fresh id,
positive grid-aligned total, and `remaining = total`. -/
theorem applyOp_create_shape (db : Db) (sid : ℕ) (kwh price : ℚ) (now : ℤ) :
    applyOp db (.create sid kwh price now) = db ∨
    ∃ offer : Offer, offer.id = db.next_offer_id ∧ 0 < offer.kwh_total ∧
      offer.kwh_remaining = offer.kwh_total ∧ onGrid offer.kwh_total ∧
      (applyOp db (.create sid kwh price now)).offers = db.offers ++ [offer] ∧
      (applyOp db (.create sid kwh price now)).next_offer_id = db.next_offer_id + 1 := by
  simp only [applyOp]
  match hc : create_offer db sid kwh price now none with
  | .error e => exact Or.inl rfl
  | .ok (offer, db') =>
    refine Or.inr ⟨offer, ?_⟩
    simp only [create_offer] at hc
    repeat' split at hc
    all_goals try (exact Except.noConfusion hc)
    rename_i seller hu hrole hpos hcheck hconstraint
    rw [Except.ok.injEq, Prod.mk.injEq] at hc
    obtain ⟨ho, hdb⟩ := hc
    rw [not_or, not_le, not_le] at hconstraint
    subst ho
    subst hdb
    exact ⟨rfl, hconstraint.1, rfl, round4_onGrid _, rfl, rfl⟩

/-- Durable effect of one `accept_offer` call: either nothing, or the
found offer row has its remaining replaced by a strictly smaller-or-equal
grid value, everything else in the offers table untouched. -/
theorem applyOp_accept_shape (db : Db) (bid oid : ℕ) (kwh : ℚ) (tx : Option String)
    (now : ℤ) (hg : ∀ o ∈ db.offers, onGrid o.kwh_remaining) :
    applyOp db (.accept bid oid kwh tx now) = db ∨
    ∃ offer rem, db.offers.find? (fun o => o.id = oid) = some offer ∧
      0 ≤ rem ∧ rem ≤ offer.kwh_remaining ∧ onGrid rem ∧
      (applyOp db (.accept bid oid kwh tx now)).offers =
        setOfferState db.offers oid rem offer.status ∧
      (applyOp db (.accept bid oid kwh tx now)).next_offer_id = db.next_offer_id := by
  simp only [applyOp]
  match ha : accept_offer db bid oid kwh tx now with
  | .error e => exact Or.inl rfl
  | .ok (tr, db') =>
    have hsess : accept_offer_session db bid oid kwh tx now = .ok (tr, db') := by
      unfold accept_offer at ha
      revert ha
      match hs : accept_offer_session db bid oid kwh tx now with
      | .error (e, dbx) => intro ha; exact absurd ha (by simp)
      | .ok (tr0, db0) => intro ha; simpa using ha
    simp only [accept_offer_session] at hsess
    repeat' split at hsess
    all_goals try (exact Except.noConfusion hsess)
    rename_i hkwh xu buyer heqU xo offer heqO hstatus hself hqty hfunds xs seller heqS hrem
    rw [Except.ok.injEq, Prod.mk.injEq] at hsess
    obtain ⟨htr, hdb⟩ := hsess
    subst hdb
    have hmem : offer ∈ db.offers := List.mem_of_find?_eq_some heqO
    have hogrid : onGrid offer.kwh_remaining := hg offer hmem
    have hqty' : kwh ⊓ offer.kwh_remaining ≤ offer.kwh_remaining := min_le_right _ _
    refine Or.inr ⟨offer, round4 (offer.kwh_remaining - kwh ⊓ offer.kwh_remaining),
      heqO, ?_, ?_, round4_onGrid _, rfl, rfl⟩
    · rw [not_le] at hqty
      exact round4_nonneg (by linarith)
    · calc round4 (offer.kwh_remaining - kwh ⊓ offer.kwh_remaining)
          ≤ round4 offer.kwh_remaining := by
            apply round4_mono
            rw [not_le] at hqty
            linarith
        _ = offer.kwh_remaining := round4_eq_self hogrid

/-- Every core operation preserves the offers-table invariant. -/
theorem OffersInv_applyOp (db : Db) (op : Op) (h : OffersInv db) :
    OffersInv (applyOp db op) := by
  obtain ⟨hbounds, hnd, hlt⟩ := h
  cases op with
  | record u p c t =>
    obtain ⟨ho, hn⟩ := applyOp_record_offers db u p c t
    exact ⟨by rw [ho]; exact hbounds, by rw [ho]; exact hnd,
      by rw [ho, hn]; exact hlt⟩
  | create sid kwh price now =>
    rcases applyOp_create_shape db sid kwh price now with
      heq | ⟨offer, hid, hpos, hremeq, hgrid, hoff, hnext⟩
    · rw [heq]; exact ⟨hbounds, hnd, hlt⟩
    · refine ⟨?_, ?_, ?_⟩
      · intro o ho
        rw [hoff, List.mem_append] at ho
        rcases ho with ho | ho
        · exact hbounds o ho
        · rw [List.mem_singleton] at ho
          subst ho
          exact ⟨by rw [hremeq]; linarith, by rw [hremeq],
            by rw [hremeq]; exact hgrid, hgrid⟩
      · rw [hoff, List.map_append]
        refine List.Nodup.append hnd (List.nodup_singleton _) ?_
        intro x hx hx'
        rw [List.mem_map] at hx
        obtain ⟨o, ho, rfl⟩ := hx
        rw [List.map_singleton, List.mem_singleton] at hx'
        have h1 := hlt o ho
        omega
      · intro o ho
        rw [hoff, List.mem_append] at ho
        rw [hnext]
        rcases ho with ho | ho
        · have := hlt o ho; omega
        · rw [List.mem_singleton] at ho
          subst ho
          omega
  | accept bid oid kwh tx now =>
    rcases applyOp_accept_shape db bid oid kwh tx now
        (fun o ho => (hbounds o ho).2.2.1) with
      heq | ⟨offer, rem, hfind, h0, hle, hgridrem, hoff, hnext⟩
    · rw [heq]; exact ⟨hbounds, hnd, hlt⟩
    · have hofmem : offer ∈ db.offers := List.mem_of_find?_eq_some hfind
      refine ⟨?_, ?_, ?_⟩
      · intro o' ho'
        rw [hoff] at ho'
        unfold setOfferState at ho'
        rw [List.mem_map] at ho'
        obtain ⟨o, ho, rfl⟩ := ho'
        by_cases hcase : o.id = oid
        · have hoeq : o = offer :=
            mem_eq_of_find_nodup db.offers oid offer hnd hfind o ho hcase
          rw [if_pos hcase]
          refine ⟨h0, ?_, hgridrem, (hbounds o ho).2.2.2⟩
          rw [hoeq]
          exact le_trans hle (hbounds offer hofmem).2.1
        · rw [if_neg hcase]
          exact hbounds o ho
      · rw [hoff, setOfferState_map_id]
        exact hnd
      · intro o' ho'
        rw [hoff] at ho'
        unfold setOfferState at ho'
        rw [List.mem_map] at ho'
        obtain ⟨o, ho, rfl⟩ := ho'
        rw [hnext]
        by_cases hcase : o.id = oid
        · rw [if_pos hcase]; exact hlt o ho
        · rw [if_neg hcase]; exact hlt o ho

/-- The invariant holds in every state reachable by core operations. -/
theorem OffersInv_runOps (ops : List Op) : ∀ (db : Db),
    OffersInv db → OffersInv (runOps db ops) := by
  induction ops with
  | nil => intro db h; exact h
  | cons op ops ih =>
    intro db h
    exact ih (applyOp db op) (OffersInv_applyOp db op h)

/-- A database whose offers table is empty satisfies the invariant. -/
theorem OffersInv_empty (db : Db) (h : db.offers = []) : OffersInv db := by
  refine ⟨?_, ?_, ?_⟩ <;> simp [h]

/-- C5: in every state reachable from an offer-free database by core
operations, every offer satisfies `0 ≤ remaining ≤ total`; across any
further single operation each existing offer's remaining never increases;
and an operation other than settlement (`accept`) leaves every existing
offer row exactly unchanged. -/
theorem offers_remaining_invariant (db0 : Db) (h0 : db0.offers = [])
    (ops : List Op) (op : Op) :
    (∀ o ∈ (runOps db0 ops).offers,
        0 ≤ o.kwh_remaining ∧ o.kwh_remaining ≤ o.kwh_total) ∧
    (∀ i (h1 : i < (runOps db0 ops).offers.length)
        (h2 : i < (applyOp (runOps db0 ops) op).offers.length),
        ((applyOp (runOps db0 ops) op).offers.get ⟨i, h2⟩).kwh_remaining ≤
          (((runOps db0 ops).offers.get ⟨i, h1⟩)).kwh_remaining) ∧
    ((∀ bid oid kwh tx now, op ≠ Op.accept bid oid kwh tx now) →
      ∀ i (h1 : i < (runOps db0 ops).offers.length)
        (h2 : i < (applyOp (runOps db0 ops) op).offers.length),
        (applyOp (runOps db0 ops) op).offers.get ⟨i, h2⟩ =
          (runOps db0 ops).offers.get ⟨i, h1⟩) := by
  have hInv : OffersInv (runOps db0 ops) :=
    OffersInv_runOps ops db0 (OffersInv_empty db0 h0)
  obtain ⟨hbounds, hnd, hlt⟩ := hInv
  refine ⟨fun o ho => ⟨(hbounds o ho).1, (hbounds o ho).2.1⟩, ?_, ?_⟩
  · intro i h1 h2
    cases op with
    | record u p c t =>
      obtain ⟨ho, _⟩ := applyOp_record_offers (runOps db0 ops) u p c t
      rw [List.get_of_eq ho ⟨i, h2⟩]
    | create sid kwh price now =>
      rcases applyOp_create_shape (runOps db0 ops) sid kwh price now with
        heq | ⟨offer, hid, hpos, hremeq, hgrid, hoff, hnext⟩
      · rw [List.get_of_eq (congrArg Db.offers heq) ⟨i, h2⟩]
      · rw [List.get_of_eq hoff ⟨i, h2⟩, List.get_append i h1]
    | accept bid oid kwh tx now =>
      rcases applyOp_accept_shape (runOps db0 ops) bid oid kwh tx now
          (fun o ho => (hbounds o ho).2.2.1) with
        heq | ⟨offer, rem, hfind, hr0, hrle, hgridrem, hoff, hnext⟩
      · rw [List.get_of_eq (congrArg Db.offers heq) ⟨i, h2⟩]
      · rw [List.get_of_eq hoff ⟨i, h2⟩]
        unfold setOfferState
        rw [List.get_map]
        by_cases hcase : ((runOps db0 ops).offers.get ⟨i, h1⟩).id = oid
        · rw [if_pos hcase]
          have hmem : (runOps db0 ops).offers.get ⟨i, h1⟩ ∈ (runOps db0 ops).offers :=
            List.get_mem _ _ _
          have hoeq := mem_eq_of_find_nodup (runOps db0 ops).offers oid offer hnd
            hfind _ hmem hcase
          rw [hoeq]
          exact hrle
        · rw [if_neg hcase]
  · intro hne i h1 h2
    cases op with
    | record u p c t =>
      obtain ⟨ho, _⟩ := applyOp_record_offers (runOps db0 ops) u p c t
      rw [List.get_of_eq ho ⟨i, h2⟩]
    | create sid kwh price now =>
      rcases applyOp_create_shape (runOps db0 ops) sid kwh price now with
        heq | ⟨offer, hid, hpos, hremeq, hgrid, hoff, hnext⟩
      · rw [List.get_of_eq (congrArg Db.offers heq) ⟨i, h2⟩]
      · rw [List.get_of_eq hoff ⟨i, h2⟩, List.get_append i h1]
    | accept bid oid kwh tx now =>
      exact absurd rfl (hne bid oid kwh tx now)

/-- Initial database for the C5 witness: a producer and a funded buyer,
empty offers table. -/
def C5w_db0 : Db :=
  { users := [{ id := 1, email := "p", wallet := "", role := UserRole.producer,
                balance_eur := 0 },
              { id := 2, email := "b", wallet := "", role := UserRole.consumer,
                balance_eur := 5 }],
    meter_samples := [], offers := [], trades := [],
    next_sample_id := 1, next_offer_id := 1, next_trade_id := 1 }

/-- Operations of the C5 witness: record a 5 kWh surplus, then offer 2 kWh. -/
def C5w_ops : List Op := [Op.record 1 5 0 0, Op.create 1 2 1 0]

/-- The offer present after running the C5 witness operations. -/
def C5w_offer : Offer :=
  { id := 1, seller_id := 1, kwh_total := 2, kwh_remaining := 2,
    price_eur_per_kwh := 1, status := OfferStatus.active, created_ts := 0 }

theorem offers_remaining_invariant_witness :
    (0:ℚ) ≤ C5w_offer.kwh_remaining ∧ C5w_offer.kwh_remaining ≤ C5w_offer.kwh_total :=
  (offers_remaining_invariant C5w_db0 rfl C5w_ops (Op.accept 2 1 1 none 10)).1
    C5w_offer
    (by norm_num [runOps, C5w_db0, C5w_ops, C5w_offer, applyOp,
      record_meter_sample, create_offer, Db.getUser, List.find?,
      compute_surplus_last_hours, list_meter_series,
      compute_reserved_surplus_kwh, sampleOrder, eps9, round4, pyRoundInt])

end P2PMarket
